import Mathlib

/-!
Verification development for the agent session orchestration layer
(`src/agent/session.rs` of the kwaak repository).

The Rust source is shallowly embedded: pure decision logic becomes Lean
functions, fallible operations become `Except`, outcomes of external
collaborators (subprocess spawn, handshake, the Tavily client builder)
become explicit parameters, and the concurrency primitives (tokio
`try_join!`, the unbounded mpsc channel, the mutex-protected agent slot)
are given small-step / trace models that match their documented semantics.
-/

set_option autoImplicit false

deriving instance DecidableEq for Except

namespace KwaakSession

/-! ## Tool set assembler (`available_builtin_tools`, session.rs lines 402-470)

Each `tools::X()` constructor from the tools module is represented by one
constructor of `BuiltinTool`; the assembler's branching on the repository
configuration is reproduced verbatim. -/

/-- The built-in tools that `available_builtin_tools` can put in the list.
One constructor per `tools::...` constructor call in session.rs. -/
inductive BuiltinTool where
  | writeFile
  | searchFile
  | git
  | shellCommand
  | searchCode
  | fetchUrl
  | explainCode
  | readFile
  | readFileWithLineNumbers
  | replaceLines
  | addLines
  | patchFile
  | createOrUpdatePullRequest
  | githubSearchCode
  | searchWeb
  | runTests
  | runCoverage
  | resetFile
deriving DecidableEq, Repr

/-- Modelled from the spec: the concrete name string of each built-in tool is
defined in the tools module, which is not among the sources under
verification. The names follow the session.rs blacklist (`write_file`,
`shell_command`, `replace_lines`, `add_lines`) and the tool vocabulary of the
specification; each `tools::X()` tool is named `X`. -/
def builtinToolName : BuiltinTool → String
  | .writeFile => "write_file"
  | .searchFile => "search_file"
  | .git => "git"
  | .shellCommand => "shell_command"
  | .searchCode => "search_code"
  | .fetchUrl => "fetch_url"
  | .explainCode => "explain_code"
  | .readFile => "read_file"
  | .readFileWithLineNumbers => "read_file_with_line_numbers"
  | .replaceLines => "replace_lines"
  | .addLines => "add_lines"
  | .patchFile => "patch_file"
  | .createOrUpdatePullRequest => "create_or_update_pull_request"
  | .githubSearchCode => "github_search_code"
  | .searchWeb => "search_web"
  | .runTests => "run_tests"
  | .runCoverage => "run_coverage"
  | .resetFile => "reset_file"

/-- The three-way agent edit mode (`config::AgentEditMode`). -/
inductive AgentEditMode where
  | whole
  | line
  | patch
deriving DecidableEq, Repr

/-- The fields of the repository configuration that
`available_builtin_tools` reads (session.rs lines 419, 436, 442, 448, 452,
462-466). -/
structure ToolConfig where
  agentEditMode : AgentEditMode
  githubEnabled : Bool
  tavilyApiKey : Option String
  testCommand : Option String
  coverageCommand : Option String
  disabledTools : List String
deriving DecidableEq, Repr

/-- The per-session git working environment (`GitAgentEnvironment`); only its
presence and starting reference matter here. -/
structure GitAgentEnvironmentM where
  startRef : String
deriving DecidableEq, Repr

/-- The tool list assembled by `available_builtin_tools` before the final
`retain` over the disabled-tools list (session.rs lines 408-459).
`tavilyBuildOk` is the outcome of the external `Tavily::builder(..).build()`
call, which is tried only when a Tavily API key is configured. -/
def availableBuiltinToolsPreFilter (cfg : ToolConfig)
    (agentEnv : Option GitAgentEnvironmentM) (tavilyBuildOk : Bool) :
    Except String (List BuiltinTool) :=
  let tools : List BuiltinTool :=
    [.writeFile, .searchFile, .git, .shellCommand, .searchCode, .fetchUrl, .explainCode]
  let tools := tools ++
    match cfg.agentEditMode with
    | .whole => [.writeFile, .readFile]
    | .line => [.readFileWithLineNumbers, .replaceLines, .addLines]
    | .patch => [.readFileWithLineNumbers, .patchFile]
  let tools := if cfg.githubEnabled then
      tools ++ [.createOrUpdatePullRequest, .githubSearchCode]
    else tools
  match cfg.tavilyApiKey with
  | some _ =>
    if tavilyBuildOk then
      Except.ok (withTrailing (tools ++ [.searchWeb]) cfg agentEnv)
    else
      Except.error "failed to build tavily client"
  | none => Except.ok (withTrailing tools cfg agentEnv)
where
  /-- The test, coverage and reset-file pushes that follow the web-search
  branch (session.rs lines 448-459). -/
  withTrailing (tools : List BuiltinTool) (cfg : ToolConfig)
      (agentEnv : Option GitAgentEnvironmentM) : List BuiltinTool :=
    let tools := match cfg.testCommand with
      | some _ => tools ++ [.runTests]
      | none => tools
    let tools := match cfg.coverageCommand with
      | some _ => tools ++ [.runCoverage]
      | none => tools
    match agentEnv with
    | some _ => tools ++ [.resetFile]
    | none => tools

/-- `available_builtin_tools` (session.rs lines 402-470): assemble the list,
then `retain` only the tools whose name is not in the configured
disabled-tools list. -/
def availableBuiltinTools (cfg : ToolConfig)
    (agentEnv : Option GitAgentEnvironmentM) (tavilyBuildOk : Bool) :
    Except String (List BuiltinTool) :=
  (availableBuiltinToolsPreFilter cfg agentEnv tavilyBuildOk).map
    (fun tools =>
      tools.filter (fun t => !(cfg.disabledTools.any (fun s => s == builtinToolName t))))

/-- The fixed baseline pushed unconditionally at the top of
`available_builtin_tools` (session.rs lines 408-416). -/
def baselineTools : List BuiltinTool :=
  [.writeFile, .searchFile, .git, .shellCommand, .searchCode, .fetchUrl, .explainCode]

/-! ## Plan-and-act delegation (`build_plan_and_act`, session.rs lines 224-284)

The input tool slice holds arbitrary tool objects identified by their names;
the delegate tool is a fresh object constructed inside `build_plan_and_act`,
so it is a distinct constructor rather than a name in the input list. -/

/-- A tool as seen by the outer (delegator) agent: either one of the tools
passed in (identified by its name) or the freshly built delegate tool. -/
inductive SessTool where
  | builtin (name : String)
  | delegate
deriving DecidableEq, Repr

/-- `Tool::name()` for the model: the delegate tool's `ToolSpec` carries the
fixed name `delegate_coding_agent` (session.rs line 255). -/
def sessToolName : SessTool → String
  | .builtin n => n
  | .delegate => "delegate_coding_agent"

/-- `BLACKLIST_DELEGATE_TOOLS` (session.rs lines 224-230), duplicate entry
included. -/
def BLACKLIST_DELEGATE_TOOLS : List String :=
  ["write_file", "shell_command", "write_file", "replace_lines", "add_lines"]

/-- The outer agent's tool list built in `build_plan_and_act`
(session.rs lines 266-272): filter out blacklisted names, then append the
delegate tool. -/
def delegateTools (availableToolNames : List String) : List SessTool :=
  ((availableToolNames.filter
      (fun n => !(BLACKLIST_DELEGATE_TOOLS.contains n))).map SessTool.builtin)
    ++ [SessTool.delegate]

/-! ## External toolbox manager (`start_mcp_toolboxes`, session.rs lines 472-521)

A configured provider is an `McpServer::SubProcess` variant; the outcome of
`TokioChildProcess::new(..)` followed by `client_info.serve(..)` — an external
spawn plus handshake — is supplied as the `serve` parameter. -/

/-- One configured MCP provider (`McpServer::SubProcess`). -/
structure McpSubProcess where
  name : String
  command : String
  args : List String
  toolFilter : Option (List String)
  env : Option (List (String × String))
deriving DecidableEq, Repr

/-- A started toolbox: the running service wrapped `with_name` and, when a
filter is configured, `with_filter` (session.rs lines 507-513). The service
is identified by the id the `serve` outcome returned. -/
structure McpToolboxM where
  serviceId : Nat
  name : String
  toolFilter : Option (List String)
deriving DecidableEq, Repr

/-- The body of the `for service in mcp_services` loop (session.rs lines
475-518): reject an empty command with the fixed error string, otherwise
spawn and handshake (`serve`), propagating its error with `?` unchanged, and
on success push the wrapped toolbox and continue. -/
def startMcpLoop (serve : McpSubProcess → Except String Nat) :
    List McpSubProcess → Except String (List McpToolboxM)
  | [] => Except.ok []
  | s :: rest =>
    if s.command = "" then Except.error "Empty command for mcp tool"
    else
      match serve s with
      | Except.error e => Except.error e
      | Except.ok svc =>
        match startMcpLoop serve rest with
        | Except.error e => Except.error e
        | Except.ok tbs => Except.ok (⟨svc, s.name, s.toolFilter⟩ :: tbs)

/-- `start_mcp_toolboxes` (session.rs lines 472-521): nothing configured
yields the empty list, otherwise run the loop over the configured
providers. -/
def startMcpToolboxes (mcp : Option (List McpSubProcess))
    (serve : McpSubProcess → Except String Nat) :
    Except String (List McpToolboxM) :=
  match mcp with
  | none => Except.ok []
  | some services => startMcpLoop serve services

/-! ## Teardown (`impl Drop for RunningSession`, session.rs lines 303-315)

The drop body is

  tokio::task::block_in_place(|| {
      tokio::runtime::Handle::current().block_on(async {
          for mcp in &mut self.mcp_toolboxes {
              if let Err(err) = mcp.cancel().await {
                  tracing::error!(?err, "Failed to cancel mcp service");
              }
          }
      });
  });

`cancelResult` supplies the outcome of each connection's external `cancel`
call. The loop attempts every connection in order: a failed cancel is only
logged, so later attempts still happen. -/

/-- One execution of the drop loop: the cancel attempts it makes, in order,
paired with their outcomes. An `Err` outcome does not stop the loop. -/
def dropTeardownLoop (toolboxes : List McpToolboxM)
    (cancelResult : McpToolboxM → Except String Unit) :
    List (McpToolboxM × Except String Unit) :=
  toolboxes.map (fun tb => (tb, cancelResult tb))

/-- The tokio execution context at the moment a `RunningSession` value is
dropped. -/
inductive TokioContext where
  | noRuntime
  | currentThreadRuntime
  | multiThreadRuntime
deriving DecidableEq, Repr

/-- Outcome of running the `Drop` impl. -/
inductive DropOutcome where
  | panicked (msg : String)
  | completed (attempts : List (McpToolboxM × Except String Unit))
deriving DecidableEq, Repr

/-- The `Drop` impl as it executes in a given tokio context. Modelled from
tokio's documented behavior for the two library calls the drop body makes:
`tokio::task::block_in_place` panics when called from a `current_thread`
runtime or from outside a multi-threaded runtime, and
`tokio::runtime::Handle::current()` panics when no tokio runtime has been
entered on the thread. Only on a multi-thread runtime worker does the cancel
loop actually run. -/
def runningSessionDrop (ctx : TokioContext) (toolboxes : List McpToolboxM)
    (cancelResult : McpToolboxM → Except String Unit) : DropOutcome :=
  match ctx with
  | .noRuntime =>
    .panicked "there is no reactor running, must be called from the context of a Tokio 1.x runtime"
  | .currentThreadRuntime =>
    .panicked "can call blocking only when running on the multi-threaded runtime"
  | .multiThreadRuntime =>
    .completed (dropTeardownLoop toolboxes cancelResult)

/-- Total number of cancel attempts made on connection `c` over the whole
session. `RunningSession` derives `Clone` (session.rs line 289) and
implements `Drop` on the struct itself rather than on a shared inner value,
and every clone carries the same toolbox vector, so every dropped clone runs
the cancel loop once over all connections. -/
def lifetimeCancelAttempts (droppedClones : Nat) (toolboxes : List McpToolboxM)
    (cancelResult : McpToolboxM → Except String Unit) (c : McpToolboxM) : Nat :=
  droppedClones * ((dropTeardownLoop toolboxes cancelResult).map Prod.fst).count c

/-- `SessionBuilder::start` passes `running_session.clone()` into the spawned
`running_message_handler` task (session.rs lines 198-201), so at least two
`RunningSession` values are eventually dropped: the handle returned to the
caller and the clone owned by the handler task (dropped when the
`AbortOnDropHandle` aborts the task). -/
def minimumDroppedClones : Nat := 2

/-! ## Control-message channel and actor (session.rs lines 64, 88-93, 102, 210-222)

The agent handle type is kept abstract as a type parameter: `RunningAgent`
is an opaque, cheaply clonable handle. -/

/-- `SessionMessage` (session.rs lines 69-71), parametrized by the agent
handle type. -/
inductive SessionMessageM (α : Type) where
  | swapAgent (agent : α)
deriving DecidableEq, Repr

/-- The state of the unbounded mpsc channel created in
`SessionBuilder::start` (session.rs line 102): whether the receiver (held by
the message handler) is still alive, and the queued messages in send
order. -/
structure SessionChannel (α : Type) where
  receiverAlive : Bool
  queue : List (SessionMessageM α)
deriving DecidableEq, Repr

/-- `UnboundedSender::send`, modelled from tokio's documented semantics: a
non-suspending, non-blocking call that enqueues the message and returns `Ok`
while the receiver is alive, and returns `Err(SendError(message))` — giving
the message back — once the receiver has been dropped. -/
def sendUnbounded {α : Type} (ch : SessionChannel α) (m : SessionMessageM α) :
    SessionChannel α × Except (SessionMessageM α) Unit :=
  if ch.receiverAlive then (⟨true, ch.queue ++ [m]⟩, Except.ok ())
  else (ch, Except.error m)

/-- `Session::swap_agent` (session.rs lines 88-93): send a `SwapAgent`
control message on the stored sender, mapping the send error through. -/
def sessionSwapAgent {α : Type} (ch : SessionChannel α) (agent : α) :
    SessionChannel α × Except (SessionMessageM α) Unit :=
  sendUnbounded ch (SessionMessageM.swapAgent agent)

/-- Applying one received message in the `running_message_handler` loop
(session.rs lines 214-221): a `SwapAgent` message replaces the active agent
via `RunningSession::swap_agent`. -/
def applySessionMessage {α : Type} (_current : α) (m : SessionMessageM α) : α :=
  match m with
  | .swapAgent agent => agent

/-- `running_message_handler` (session.rs lines 210-222) over the messages it
receives before its channel closes: a single-consumer loop that applies the
messages one at a time, in arrival order, to the active-agent slot. The
argument list is the arrival order, which for the single mpsc consumer is
the send order. -/
def runningMessageHandler {α : Type} (init : α) (msgs : List (SessionMessageM α)) : α :=
  msgs.foldl applySessionMessage init

/-! ## Active-agent slot (session.rs lines 293, 324-326, 343-346)

The slot is `Arc<Mutex<RunningAgent>>`. Each operation holds the mutex for
the duration of one access — `active_agent` clones under the lock,
`swap_agent` assigns under the lock — so in any concurrent execution these
critical sections are serialized; an execution is a linearization of atomic
events, which the list of operations below represents. -/

/-- An atomic operation on the active-agent slot: a completed
`swap_agent` (store under the mutex) or a completed `active_agent` read
(clone under the mutex). -/
inductive SlotOp (α : Type) where
  | swap (agent : α)
  | read
deriving DecidableEq, Repr

/-- Execute a linearized sequence of slot operations starting from the
initial agent installed by `SessionBuilder::start`; returns the final slot
contents and the list of values the reads observed, in order. -/
def runSlotOps {α : Type} (current : α) : List (SlotOp α) → α × List α
  | [] => (current, [])
  | SlotOp.swap agent :: rest => runSlotOps agent rest
  | SlotOp.read :: rest =>
    let r := runSlotOps current rest
    (r.1, current :: r.2)

/-! ## Fail-fast startup join (`tokio::try_join!`, session.rs lines 122-139)

The four concurrent startup steps are indexed by `Fin 4`:
0 = chat title derivation (`util::rename_chat`),
1 = sandbox start (`start_tool_executor`),
2 = branch-name derivation (`util::create_branch_name`),
3 = initial-context retrieval (`generate_initial_context`).
`order` is the interleaving: the order in which the steps complete. -/

/-- The first step, in completion order, to have failed; `none` when every
completed step succeeded. -/
def firstFailure {E V : Type} (order : List (Fin 4)) (r : Fin 4 → Except E V) :
    Option E :=
  match order with
  | [] => none
  | i :: rest =>
    match r i with
    | Except.error e => some e
    | Except.ok _ => firstFailure rest r

/-- The startup pipeline from the `try_join!` on (session.rs lines 122-139
and the trailing `?`): if any step fails, `try_join!` resolves to the first
error to complete and `start` returns it; only when all four steps succeed
does the pipeline continue with the sequential remainder (`rest`), whose
value is the `RunningSession` (or a later-stage error). -/
def sessionStartAfterJoin {E V RS : Type} (order : List (Fin 4))
    (r : Fin 4 → Except E V) (rest : Except E RS) : Except E RS :=
  match firstFailure order r with
  | some e => Except.error e
  | none => rest

/-! ## Theorems -/

/-- C2 counterexample: with edit mode line-based and no code-hosting,
web-search, test or coverage integrations configured, the assembled tool
list nevertheless contains the whole-file write tool, because `write_file`
is part of the unconditional baseline (session.rs line 409). This refutes
the claim's conjunct that no whole-file write tool is present. -/
theorem lineMode_contains_write_file :
    ∃ tools,
      availableBuiltinTools ⟨AgentEditMode.line, false, none, none, none, []⟩ none true
          = Except.ok tools
        ∧ BuiltinTool.writeFile ∈ tools :=
  ⟨_, rfl, by decide⟩

/-- C2 (amended): for every configuration with edit mode line-based, no
code-hosting, web-search, test or coverage integrations and no disabled
tools, the assembled tool list contains the baseline tools (the whole-file
write tool among them) plus the line-numbered read, line replace and line
add tools, and contains no whole-file read tool and no patch tool — the
edit-mode step adds exactly the line-based group. -/
theorem lineMode_toolset_amended (cfg : ToolConfig)
    (env : Option GitAgentEnvironmentM) (tavilyBuildOk : Bool)
    (hmode : cfg.agentEditMode = AgentEditMode.line)
    (hgh : cfg.githubEnabled = false)
    (htav : cfg.tavilyApiKey = none)
    (htest : cfg.testCommand = none)
    (hcov : cfg.coverageCommand = none)
    (hdis : cfg.disabledTools = []) :
    ∃ tools,
      availableBuiltinTools cfg env tavilyBuildOk = Except.ok tools
        ∧ (∀ t ∈ baselineTools, t ∈ tools)
        ∧ BuiltinTool.readFileWithLineNumbers ∈ tools
        ∧ BuiltinTool.replaceLines ∈ tools
        ∧ BuiltinTool.addLines ∈ tools
        ∧ BuiltinTool.readFile ∉ tools
        ∧ BuiltinTool.patchFile ∉ tools := by
  obtain ⟨m, gh, tav, tst, cov, dis⟩ := cfg
  simp only at hmode hgh htav htest hcov hdis
  subst hmode; subst hgh; subst htav; subst htest; subst hcov; subst hdis
  cases env with
  | none =>
    exact ⟨[.writeFile, .searchFile, .git, .shellCommand, .searchCode, .fetchUrl,
        .explainCode, .readFileWithLineNumbers, .replaceLines, .addLines],
      rfl, by decide, by decide, by decide, by decide, by decide, by decide⟩
  | some g =>
    exact ⟨[.writeFile, .searchFile, .git, .shellCommand, .searchCode, .fetchUrl,
        .explainCode, .readFileWithLineNumbers, .replaceLines, .addLines, .resetFile],
      rfl, by decide, by decide, by decide, by decide, by decide, by decide⟩

/-- C2 witness: the amended statement instantiated at the concrete line-mode
configuration with every integration off. -/
theorem lineMode_toolset_amended_witness :
    ∃ tools,
      availableBuiltinTools ⟨AgentEditMode.line, false, none, none, none, []⟩ none true
          = Except.ok tools
        ∧ (∀ t ∈ baselineTools, t ∈ tools)
        ∧ BuiltinTool.readFileWithLineNumbers ∈ tools
        ∧ BuiltinTool.replaceLines ∈ tools
        ∧ BuiltinTool.addLines ∈ tools
        ∧ BuiltinTool.readFile ∉ tools
        ∧ BuiltinTool.patchFile ∉ tools :=
  lineMode_toolset_amended ⟨AgentEditMode.line, false, none, none, none, []⟩
    none true rfl rfl rfl rfl rfl rfl

/-- C3: for every input tool list, the outer (delegator) agent's tool set
built by `build_plan_and_act` contains no tool whose name is in
`BLACKLIST_DELEGATE_TOOLS`, contains the delegate tool exactly once, and
keeps every non-blacklisted input tool. -/
theorem delegateTools_isolation (names : List String) :
    (∀ t ∈ delegateTools names, sessToolName t ∉ BLACKLIST_DELEGATE_TOOLS)
      ∧ (delegateTools names).count SessTool.delegate = 1
      ∧ (∀ n ∈ names, n ∉ BLACKLIST_DELEGATE_TOOLS →
          SessTool.builtin n ∈ delegateTools names) := by
  refine ⟨?_, ?_, ?_⟩
  · intro t ht
    rcases List.mem_append.mp ht with hl | hr
    · rcases List.mem_map.mp hl with ⟨n, hn, rfl⟩
      have hp := (List.mem_filter.mp hn).2
      simpa [sessToolName] using hp
    · have : t = SessTool.delegate := by simpa using hr
      subst this
      decide
  · rw [delegateTools, List.count_append]
    have h0 : ((names.filter
        (fun n => !(BLACKLIST_DELEGATE_TOOLS.contains n))).map SessTool.builtin).count
          SessTool.delegate = 0 := by
      refine List.count_eq_zero.mpr ?_
      intro hmem
      rcases List.mem_map.mp hmem with ⟨n, _, hn⟩
      exact SessTool.noConfusion hn
    rw [h0]
    decide
  · intro n hn hnb
    refine List.mem_append.mpr (Or.inl ?_)
    refine List.mem_map.mpr ⟨n, ?_, rfl⟩
    refine List.mem_filter.mpr ⟨hn, ?_⟩
    simpa using hnb

/-- C3 witness: the isolation theorem applied to a concrete input list
containing a blacklisted and a non-blacklisted tool. -/
theorem delegateTools_isolation_witness :
    SessTool.builtin "search_file" ∈ delegateTools ["write_file", "search_file"] :=
  (delegateTools_isolation ["write_file", "search_file"]).2.2 "search_file"
    (by decide) (by decide)

/-- C9: whenever `available_builtin_tools` returns a tool list, no tool in
it has a name that appears in the configured disabled-tools list — the final
`retain` removes disabled tools regardless of which policy branch added
them. -/
theorem availableBuiltinTools_disabled_removed (cfg : ToolConfig)
    (env : Option GitAgentEnvironmentM) (tavilyBuildOk : Bool)
    (tools : List BuiltinTool)
    (h : availableBuiltinTools cfg env tavilyBuildOk = Except.ok tools) :
    ∀ t ∈ tools, builtinToolName t ∉ cfg.disabledTools := by
  intro t ht hmem
  rw [availableBuiltinTools] at h
  cases hpre : availableBuiltinToolsPreFilter cfg env tavilyBuildOk with
  | error e => rw [hpre] at h; exact Except.noConfusion h
  | ok pre =>
    rw [hpre] at h
    have htools : tools = pre.filter
        (fun t => !(cfg.disabledTools.any (fun s => s == builtinToolName t))) := by
      cases h; rfl
    subst htools
    have hp := (List.mem_filter.mp ht).2
    simp only [Bool.not_eq_eq_eq_not, Bool.not_true, List.any_eq_false,
      decide_eq_false_iff_not] at hp
    have := hp (builtinToolName t) hmem
    simp at this

/-- C9 witness: on a configuration that disables `write_file`, the returned
list contains `search_file` and the theorem yields that its name is not
among the disabled tools. -/
theorem availableBuiltinTools_disabled_removed_witness :
    builtinToolName BuiltinTool.searchFile ∉
      (ToolConfig.mk AgentEditMode.whole false none none none ["write_file"]).disabledTools :=
  availableBuiltinTools_disabled_removed
    (ToolConfig.mk AgentEditMode.whole false none none none ["write_file"]) none true
    [BuiltinTool.searchFile, .git, .shellCommand, .searchCode, .fetchUrl, .explainCode,
      .readFile]
    (by decide) BuiltinTool.searchFile (by decide)

/-- Helper for C6: as soon as any configured provider has an empty command
or its spawn/handshake fails, the toolbox startup loop returns an error. -/
theorem startMcpLoop_error_of_bad (serve : McpSubProcess → Except String Nat) :
    ∀ services : List McpSubProcess,
      (∃ s ∈ services, s.command = "" ∨ ∃ e, serve s = Except.error e) →
      ∃ e, startMcpLoop serve services = Except.error e := by
  intro services
  induction services with
  | nil =>
    rintro ⟨s, hs, -⟩
    exact absurd hs (List.not_mem_nil s)
  | cons s rest ih =>
    rintro ⟨t, ht, hbadt⟩
    by_cases hc : s.command = ""
    · exact ⟨"Empty command for mcp tool", by simp [startMcpLoop, hc]⟩
    · cases hserve : serve s with
      | error e => exact ⟨e, by simp [startMcpLoop, hc, hserve]⟩
      | ok svc =>
        have htrest : t ∈ rest := by
          rcases List.mem_cons.mp ht with rfl | h
          · rcases hbadt with hce | ⟨e, he⟩
            · exact absurd hce hc
            · rw [hserve] at he
              exact Except.noConfusion he
          · exact h
        obtain ⟨e, he⟩ := ih ⟨t, htrest, hbadt⟩
        exact ⟨e, by simp [startMcpLoop, hc, hserve, he]⟩

/-- C1: over the session's lifetime each MCP connection receives one cancel
attempt per dropped `RunningSession` clone; with the minimum of two dropped
clones that `SessionBuilder::start` guarantees (the returned handle and the
message handler's clone), each of the two connections is cancelled twice —
not exactly once as the claim states — even though, within a single drop,
the failure of the first connection's cancel does not prevent the attempt on
the second. -/
theorem lifetime_cancel_attempts_twice :
    (lifetimeCancelAttempts minimumDroppedClones
        [⟨0, "alpha", none⟩, ⟨1, "beta", none⟩]
        (fun tb => if tb.serviceId = 0 then Except.error "cancel failed" else Except.ok ())
        ⟨0, "alpha", none⟩ = 2)
      ∧ (lifetimeCancelAttempts minimumDroppedClones
          [⟨0, "alpha", none⟩, ⟨1, "beta", none⟩]
          (fun tb => if tb.serviceId = 0 then Except.error "cancel failed" else Except.ok ())
          ⟨1, "beta", none⟩ = 2)
      ∧ ((dropTeardownLoop [⟨0, "alpha", none⟩, ⟨1, "beta", none⟩]
          (fun tb => if tb.serviceId = 0 then Except.error "cancel failed" else Except.ok ())).map
            Prod.fst = [⟨0, "alpha", none⟩, ⟨1, "beta", none⟩])
      ∧ (2 ≠ 1) := by
  refine ⟨by decide, by decide, by decide, by decide⟩

/-- C5: when the final release of a `RunningSession` happens where no tokio
runtime is available the `Drop` impl panics (from
`tokio::runtime::Handle::current()`), and on a current-thread runtime it
panics (from `tokio::task::block_in_place`) — refuting the claim that
teardown never panics when no asynchronous runtime is available. -/
theorem runningSessionDrop_panics_without_runtime :
    runningSessionDrop TokioContext.noRuntime [⟨0, "alpha", none⟩] (fun _ => Except.ok ())
        = DropOutcome.panicked
            "there is no reactor running, must be called from the context of a Tokio 1.x runtime"
      ∧ runningSessionDrop TokioContext.currentThreadRuntime [⟨0, "alpha", none⟩]
            (fun _ => Except.ok ())
          = DropOutcome.panicked
              "can call blocking only when running on the multi-threaded runtime" :=
  ⟨rfl, rfl⟩

/-- C6 counterexample: the startup errors carry no context identifying the
failing provider — two configurations differing only in the provider name
produce identical errors, both for an empty command (the fixed string
`Empty command for mcp tool`) and for a failed spawn/handshake (the
collaborator's error propagated verbatim). -/
theorem startMcpToolboxes_error_lacks_provider :
    startMcpToolboxes (some [⟨"alpha", "", [], none, none⟩]) (fun _ => Except.ok 0)
        = Except.error "Empty command for mcp tool"
      ∧ startMcpToolboxes (some [⟨"beta", "", [], none, none⟩]) (fun _ => Except.ok 0)
          = Except.error "Empty command for mcp tool"
      ∧ startMcpToolboxes (some [⟨"alpha", "run-server", [], none, none⟩])
            (fun _ => Except.error "handshake failed")
          = Except.error "handshake failed"
      ∧ startMcpToolboxes (some [⟨"beta", "run-server", [], none, none⟩])
            (fun _ => Except.error "handshake failed")
          = Except.error "handshake failed"
      ∧ ("alpha" : String) ≠ "beta" := by
  refine ⟨by decide, by decide, by decide, by decide, by decide⟩

/-- C6 (amended): whenever any configured provider has an empty command or
its subprocess spawn / connection handshake fails, the toolbox startup
returns an error and no toolbox list (aborting the surrounding startup
pipeline); the error, however, does not identify the failing provider. -/
theorem startMcpToolboxes_aborts_amended (services : List McpSubProcess)
    (serve : McpSubProcess → Except String Nat)
    (hbad : ∃ s ∈ services, s.command = "" ∨ ∃ e, serve s = Except.error e) :
    ∃ e, startMcpToolboxes (some services) serve = Except.error e :=
  startMcpLoop_error_of_bad serve services hbad

/-- C6 witness: the amended statement instantiated at a single provider with
an empty command. -/
theorem startMcpToolboxes_aborts_amended_witness :
    ∃ e, startMcpToolboxes (some [⟨"alpha", "", [], none, none⟩]) (fun _ => Except.ok 0)
        = Except.error e :=
  startMcpToolboxes_aborts_amended [⟨"alpha", "", [], none, none⟩] (fun _ => Except.ok 0)
    ⟨⟨"alpha", "", [], none, none⟩, by simp, Or.inl rfl⟩

/-- Helper for C4: the join reports no failure exactly when every step that
completed succeeded. -/
theorem firstFailure_eq_none_iff {E V : Type} (order : List (Fin 4))
    (r : Fin 4 → Except E V) :
    firstFailure order r = none ↔ ∀ j ∈ order, (r j).isOk = true := by
  induction order with
  | nil => simp [firstFailure]
  | cons i rest ih =>
    cases hri : r i with
    | error e =>
      simp only [firstFailure, hri]
      constructor
      · intro h
        exact Option.noConfusion h
      · intro h
        have := h i (List.mem_cons_self i rest)
        rw [hri] at this
        exact absurd this (by simp [Except.isOk, Except.toBool])
    | ok v =>
      simp only [firstFailure, hri, ih]
      constructor
      · intro h j hj
        rcases List.mem_cons.mp hj with rfl | hj
        · rw [hri]; rfl
        · exact h j hj
      · intro h j hj
        exact h j (List.mem_cons_of_mem i hj)

/-- Helper for C4: when one step fails and every other step succeeds, the
join resolves to that step's error, whatever the completion order. -/
theorem firstFailure_of_single_failure {E V : Type} (order : List (Fin 4))
    (r : Fin 4 → Except E V) (i : Fin 4) (e : E)
    (hi : r i = Except.error e)
    (hok : ∀ j : Fin 4, j ≠ i → (r j).isOk = true)
    (hmem : i ∈ order) :
    firstFailure order r = some e := by
  induction order with
  | nil => cases hmem
  | cons k rest ih =>
    rcases List.mem_cons.mp hmem with heq | hrest
    · subst heq
      simp [firstFailure, hi]
    · by_cases hk : k = i
      · subst hk
        simp [firstFailure, hi]
      · have hkok := hok k hk
        cases hv : r k with
        | error e2 => rw [hv] at hkok; exact absurd hkok (by simp [Except.isOk, Except.toBool])
        | ok v => simpa [firstFailure, hv] using ih hrest

/-- C4: for every completion interleaving of the four concurrent startup
steps, if one step fails while the other three succeed the startup pipeline
returns that step's error (so no Running Session), and the pipeline reaches
the sequential remainder — hence can return a Running Session — only when
all four steps succeed. -/
theorem tryJoin_fail_fast {E V RS : Type} (r : Fin 4 → Except E V)
    (order : List (Fin 4)) (hord : ∀ j : Fin 4, j ∈ order) (rest : Except E RS) :
    (∀ (i : Fin 4) (e : E), r i = Except.error e →
        (∀ j : Fin 4, j ≠ i → (r j).isOk = true) →
        sessionStartAfterJoin order r rest = Except.error e)
      ∧ (∀ rs : RS, sessionStartAfterJoin order r rest = Except.ok rs →
          ∀ j : Fin 4, (r j).isOk = true) := by
  constructor
  · intro i e hi hok
    rw [sessionStartAfterJoin, firstFailure_of_single_failure order r i e hi hok (hord i)]
  · intro rs hrs j
    rw [sessionStartAfterJoin] at hrs
    cases hff : firstFailure order r with
    | some e => rw [hff] at hrs; exact Except.noConfusion hrs
    | none => exact (firstFailure_eq_none_iff order r).mp hff j (hord j)

/-- C4 witness: the sandbox-start step (index 1) fails while the other three
steps succeed; under the completion order 2, 0, 1, 3 the pipeline returns
the sandbox error. -/
theorem tryJoin_fail_fast_witness :
    sessionStartAfterJoin [2, 0, 1, 3]
        (fun i => if i = 1 then Except.error "failed to start executor" else Except.ok (0 : Nat))
        (Except.ok (7 : Nat))
      = Except.error "failed to start executor" :=
  (tryJoin_fail_fast
      (fun i => if i = 1 then Except.error "failed to start executor" else Except.ok (0 : Nat))
      [2, 0, 1, 3] (by decide) (Except.ok (7 : Nat))).1
    1 "failed to start executor" (by decide) (by decide)

/-- C7: the background actor applies control messages one at a time in send
order — processing a concatenation equals processing the first batch and
then the second from the resulting agent — and after a sequence ending in a
swap message the active agent is exactly the agent carried by that last
message; with no messages it is the initial agent. -/
theorem runningMessageHandler_order {α : Type} (init : α) :
    runningMessageHandler init ([] : List (SessionMessageM α)) = init
      ∧ (∀ (pre : List (SessionMessageM α)) (a : α),
          runningMessageHandler init (pre ++ [SessionMessageM.swapAgent a]) = a)
      ∧ (∀ ms1 ms2 : List (SessionMessageM α),
          runningMessageHandler init (ms1 ++ ms2)
            = runningMessageHandler (runningMessageHandler init ms1) ms2) := by
  refine ⟨rfl, ?_, ?_⟩
  · intro pre a
    rw [runningMessageHandler, List.foldl_append]
    rfl
  · intro ms1 ms2
    rw [runningMessageHandler, List.foldl_append]
    rfl

/-- C8: in every linearization of concurrent `swap_agent` calls and
`active_agent` reads on the mutex-protected slot, each read observes either
the initial agent installed at startup or a value written by some completed
swap — never a torn value (the slot holds exactly one agent at any
instant). -/
theorem activeAgent_reads_written (α : Type) (init : α) (ops : List (SlotOp α)) :
    ∀ r ∈ (runSlotOps init ops).2, r = init ∨ SlotOp.swap r ∈ ops := by
  induction ops generalizing init with
  | nil =>
    intro r hr
    simp [runSlotOps] at hr
  | cons op rest ih =>
    intro r hr
    cases op with
    | swap a =>
      simp only [runSlotOps] at hr
      rcases ih a r hr with rfl | h
      · exact Or.inr (List.mem_cons_self _ _)
      · exact Or.inr (List.mem_cons_of_mem _ h)
    | read =>
      simp only [runSlotOps] at hr
      rcases List.mem_cons.mp hr with rfl | h
      · exact Or.inl rfl
      · rcases ih init r h with rfl | h2
        · exact Or.inl rfl
        · exact Or.inr (List.mem_cons_of_mem _ h2)

/-- C8 witness: in the linearization swap 5 then read, the read observes 5,
a value written by a completed swap. -/
theorem activeAgent_reads_written_witness :
    (5 : Nat) = 3 ∨ SlotOp.swap (5 : Nat) ∈ [SlotOp.swap (5 : Nat), SlotOp.read] :=
  activeAgent_reads_written Nat 3 [SlotOp.swap 5, SlotOp.read] 5 (by decide)

/-- C10: `Session::swap_agent` (a plain, non-suspending send on the
unbounded channel) succeeds exactly while the background actor's receiver is
alive, in which case the swap message is enqueued — delivered, not dropped —
and once the receiver has been dropped it returns the send error carrying
the message back, leaving the channel unchanged. -/
theorem sessionSwapAgent_send_semantics {α : Type} (ch : SessionChannel α) (agent : α) :
    ((sessionSwapAgent ch agent).2 = Except.ok () ↔ ch.receiverAlive = true)
      ∧ (ch.receiverAlive = true →
          (sessionSwapAgent ch agent).1.queue
            = ch.queue ++ [SessionMessageM.swapAgent agent])
      ∧ (ch.receiverAlive = false →
          (sessionSwapAgent ch agent).2
              = Except.error (SessionMessageM.swapAgent agent)
            ∧ (sessionSwapAgent ch agent).1 = ch) := by
  obtain ⟨alive, q⟩ := ch
  cases alive <;>
    refine ⟨?_, ?_, ?_⟩ <;>
      simp [sessionSwapAgent, sendUnbounded]

/-- C10 witness: on a live channel with an empty queue, sending a swap for
agent 5 enqueues exactly that message. -/
theorem sessionSwapAgent_send_semantics_witness :
    (sessionSwapAgent (⟨true, []⟩ : SessionChannel Nat) 5).1.queue
      = [] ++ [SessionMessageM.swapAgent 5] :=
  (sessionSwapAgent_send_semantics (⟨true, []⟩ : SessionChannel Nat) 5).2.1 rfl

end KwaakSession
